import Mathlib

/-!
Shallow embedding of the `network` discrete-event radio simulator
(src/network/Packet.py, Radio.py, World.py, Schedule.py, ScheduleManager.py)
and proofs about its data model and operations.

Conventions of the embedding:
* Python `int` fields become `Int` (counters that the code keeps in
  `[0, num]` become `Nat`); simulation times and RSSI values, which the
  tests drive with non-integer values such as `5 + 1e-3`, become `Rat`.
* Stateful methods become functions from the pre-state to the post-state,
  returned next to the method result.
* Stateful nullary closures (packet constructors, field producers) become
  pure functions of a global invocation counter that is threaded through
  every call, so that "called exactly once, in order" is observable.
* `collections.deque(maxlen=100)` becomes `ringAppend 100`.
* Generators advanced with `next(...)` become one-step functions returning
  `none` for `StopIteration`.
-/

/-- A value stored in the `contents` mapping of a `DataPacket`
(src/network/Packet.py). The tests use strings and integers. -/
inductive Value where
  | str (s : String)
  | int (z : Int)
deriving DecidableEq

/-- Python `dict` equality for an association list with unique keys:
both dictionaries hold the same keys and map each key to the same value.
Insertion order is ignored, as it is by `dict.__eq__`. -/
def dictBeq (a b : List (String × Value)) : Bool :=
  a.all (fun kv => b.lookup kv.1 == some kv.2) &&
  b.all (fun kv => a.lookup kv.1 == some kv.2)

/-- `DataPacket` (src/network/Packet.py): source, destination and a
field-name to value mapping. The mapping is kept as an association list in
insertion order; the source builds it as a Python `dict`. -/
structure DataPacket where
  src : String
  dest : String
  contents : List (String × Value)
deriving DecidableEq

/-- `DataPacket.__eq__` (src/network/Packet.py lines 65-81): structural
over source, destination and the contents dictionary. -/
def DataPacket.beq (p q : DataPacket) : Bool :=
  (p.src == q.src) && (p.dest == q.dest) && dictBeq p.contents q.contents

/-- `RadioPacket` (src/network/Radio.py lines 29-87): a `DataPacket`
wrapped with an on-air duration and an RSSI. -/
structure RadioPacket where
  data_packet : DataPacket
  duration : Int
  rssi : Rat
deriving DecidableEq

/-- `RadioPacket.__eq__` (src/network/Radio.py lines 51-67): structural
over all three fields. -/
def RadioPacket.beq (p q : RadioPacket) : Bool :=
  DataPacket.beq p.data_packet q.data_packet &&
  (p.duration == q.duration) && decide (p.rssi = q.rssi)

/-- `RadioPacket.src` (src/network/Radio.py lines 69-77). -/
def RadioPacket.src (p : RadioPacket) : String := p.data_packet.src

/-- `RadioPacket.dest` (src/network/Radio.py lines 79-87). -/
def RadioPacket.dest (p : RadioPacket) : String := p.data_packet.dest

/-- `RadioMode` (src/network/Radio.py lines 19-27). -/
inductive RadioMode where
  | OFF
  | RX
  | TX
deriving DecidableEq

/-- `ScheduleState` (src/network/Schedule.py lines 17-28). -/
inductive ScheduleState where
  | ACTIVE
  | COMPLETE
  | SUSPENDED
deriving DecidableEq

/-- One `append` on a `collections.deque(maxlen=cap)`: the new element is
placed at the right end and, if the capacity is exceeded, the oldest
elements are dropped from the left. -/
def ringAppend {α : Type} (cap : Nat) (buf : List α) (x : α) : List α :=
  if buf.length + 1 ≤ cap then buf ++ [x]
  else (buf ++ [x]).drop (buf.length + 1 - cap)

/-- `Radio.PacketEvent.Status` (src/network/Radio.py lines 99-107). The
source enumeration has exactly these three members; there is no
NOTHING_RX member and no TX/RX split of SUCCESS. -/
inductive PacketEventStatus where
  | SUCCESS
  | DROPPED_RSSI
  | DROPPED_MODE
deriving DecidableEq

/-- `Radio.PacketEvent` (src/network/Radio.py lines 93-152). -/
structure PacketEvent where
  status : PacketEventStatus
  time : Rat
  packet : RadioPacket
deriving DecidableEq

/-- The per-radio state touched by the claims (src/network/Radio.py lines
155-184): RSSI threshold, mode and the two history ring buffers. The
pending-delivery process handle lives in the world model and is passed to
`Radio.receive` as a liveness flag. -/
structure Radio where
  threshold_rssi : Rat
  mode : RadioMode
  tx_packet_history : List PacketEvent
  rx_packet_history : List PacketEvent
deriving DecidableEq

/-- A freshly constructed radio (src/network/Radio.py lines 155-184):
threshold 0.1, mode OFF, empty histories. -/
def Radio.make : Radio :=
  { threshold_rssi := mkRat 1 10
    mode := RadioMode.OFF
    tx_packet_history := []
    rx_packet_history := [] }

/-- `Radio.notify_intent_to_deliver` (src/network/Radio.py lines 217-262):
mode gate first, then RSSI gate; each failed gate appends one dropped
event to the RX history and returns false; success mutates nothing. -/
def Radio.notify_intent_to_deliver (r : Radio) (now : Rat) (packet : RadioPacket) :
    Bool × Radio :=
  if r.mode ≠ RadioMode.RX then
    let ev : PacketEvent := ⟨PacketEventStatus.DROPPED_MODE, now, packet⟩
    (false, { r with rx_packet_history := ringAppend 100 r.rx_packet_history ev })
  else if packet.rssi < r.threshold_rssi then
    let ev : PacketEvent := ⟨PacketEventStatus.DROPPED_RSSI, now, packet⟩
    (false, { r with rx_packet_history := ringAppend 100 r.rx_packet_history ev })
  else
    (true, r)

/-- The loop of `Radio.receive` (src/network/Radio.py lines 289-313).
`deliveries` is the chronological list of firings of the receive event
observed inside the window, each pair carrying the firing time and the
delivered `RadioPacket`; `pending_alive` says whether a pending-delivery
process is live when the window timeout fires. A receive-event firing
appends a SUCCESS event and stores the payload; the timeout branch at the
window end either interrupts the live pending process (returned flag) or
merely writes a debug log line and appends nothing. -/
def receiveLoop (end_time : Rat) (pending_alive : Bool) :
    List (Rat × RadioPacket) → Rat → List PacketEvent → Option DataPacket →
    List PacketEvent × Option DataPacket × Bool
  | deliveries, now, hist, pkt =>
    if now < end_time then
      match deliveries with
      | (t, p) :: rest =>
        if t < end_time then
          receiveLoop end_time pending_alive rest t
            (ringAppend 100 hist ⟨PacketEventStatus.SUCCESS, t, p⟩)
            (some p.data_packet)
        else (hist, pkt, pending_alive)
      | [] => (hist, pkt, pending_alive)
    else (hist, pkt, false)

/-- `Radio.receive` (src/network/Radio.py lines 264-316): run the window
loop from `now` to `now + duration`, set the mode to OFF afterwards and
return the last delivered data packet, if any, next to the flag saying
whether the pending-delivery process was interrupted at the window end. -/
def Radio.receive (r : Radio) (now duration : Rat)
    (deliveries : List (Rat × RadioPacket)) (pending_alive : Bool) :
    Radio × Option DataPacket × Bool :=
  let end_time := now + duration
  let res := receiveLoop end_time pending_alive deliveries now r.rx_packet_history none
  ({ r with mode := RadioMode.OFF, rx_packet_history := res.1 }, res.2.1, res.2.2)

/-- `World.CollisionEvent.Status` (src/network/World.py lines 30-34). -/
inductive CollisionStatus where
  | COLLISION
deriving DecidableEq

/-- `World.CollisionEvent` (src/network/World.py lines 24-54). -/
structure CollisionEvent where
  status : CollisionStatus
  time : Rat
  packet_a : RadioPacket
  packet_b : RadioPacket
deriving DecidableEq

/-- `World.CollisionEvent.__eq__` (src/network/World.py lines 56-76),
translated with Python operator precedence: `and` binds tighter than
`or`, so the time comparison guards only the same-order disjunct and the
swapped-order disjunct compares the packets alone. -/
def CollisionEvent.beq (c1 c2 : CollisionEvent) : Bool :=
  (decide (c1.time = c2.time) &&
    (RadioPacket.beq c1.packet_a c2.packet_a &&
     RadioPacket.beq c1.packet_b c2.packet_b)) ||
  (RadioPacket.beq c1.packet_a c2.packet_b &&
   RadioPacket.beq c1.packet_b c2.packet_a)

/-- An interrupt cause delivered to a pending-delivery tracker
(src/network/World.py lines 173-186): either a colliding `RadioPacket` or
a string such as "Radio stopped being in receive mode!". -/
inductive InterruptCause where
  | radioPacket (p : RadioPacket)
  | str (s : String)
deriving DecidableEq

/-- One interrupt delivered to a pending-delivery tracker, carrying the
simulation time at which it arrives and its cause. -/
structure TrackerInterrupt where
  time : Rat
  cause : InterruptCause
deriving DecidableEq

/-- The while loop of `World.pending_transmit` (src/network/World.py lines
165-190). `ints` is the chronological list of interrupts delivered while
the tracker sleeps. A `RadioPacket` cause appends one `CollisionEvent`
stamped with the arrival time to the world history; a string cause only
writes a log line; either cause sets the collision flag (the assignment
in the source sits after the if/elif, in the except block) and the loop
then sleeps again towards `end_time`. Returns the final value of the
clock, the collision flag and the world history. -/
def pending_transmit_loop (end_time : Rat) (packet : RadioPacket) :
    List TrackerInterrupt → Rat → Bool → List CollisionEvent →
    Rat × Bool × List CollisionEvent
  | ints, now, collision, hist =>
    if now < end_time then
      match ints with
      | [] => (end_time, collision, hist)
      | i :: rest =>
        let hist' :=
          match i.cause with
          | InterruptCause.radioPacket q =>
              ringAppend 100 hist ⟨CollisionStatus.COLLISION, i.time, q, packet⟩
          | InterruptCause.str _ => hist
        pending_transmit_loop end_time packet rest i.time true hist'
    else (now, collision, hist)

/-- Outcome of one run of `World.pending_transmit`. `delivered` records
whether the tracker reactivated the receive event of the radio with the
packet at the end. -/
structure TrackerResult where
  finalTime : Rat
  collision : Bool
  history : List CollisionEvent
  delivered : Bool
deriving DecidableEq

/-- `World.pending_transmit` (src/network/World.py lines 147-196): sleep
from `start` to `start + packet.duration`, handling the interrupts that
arrive meanwhile, and hand the packet to the receive event of the radio
exactly when the collision flag stayed false. -/
def World.pending_transmit (start : Rat) (packet : RadioPacket)
    (ints : List TrackerInterrupt) (hist : List CollisionEvent) : TrackerResult :=
  let end_time := start + (packet.duration : Rat)
  let r := pending_transmit_loop end_time packet ints start false hist
  { finalTime := r.1, collision := r.2.1, history := r.2.2,
    delivered := r.2.1 == false }

/-- The collision events that `World.pending_transmit` appends for a list
of interrupts: one event per `RadioPacket` cause, stamped with the
arrival time of that interrupt, pairing the interrupting packet with the
in-flight one. -/
def collisionsOf (packet : RadioPacket) (ints : List TrackerInterrupt) :
    List CollisionEvent :=
  ints.filterMap (fun i =>
    match i.cause with
    | InterruptCause.radioPacket q =>
        some ⟨CollisionStatus.COLLISION, i.time, q, packet⟩
    | InterruptCause.str _ => none)

/-- The routing step of `World.communications` (src/network/World.py lines
110-129): the list of node names on which `notify_intent_to_deliver` is
invoked for one transmitted packet. For a broadcast the node mapping is
copied and the source key deleted (a missing key is a fatal KeyError,
returned as `none`); otherwise the single named destination is looked up. -/
def World.deliveryAttempts (nodeNames : List String) (packet : RadioPacket) :
    Option (List String) :=
  if packet.dest = "All" then
    if packet.src ∈ nodeNames then some (nodeNames.erase packet.src) else none
  else
    if packet.dest ∈ nodeNames then some [packet.dest] else none

/-- `Schedule` (src/network/Schedule.py lines 30-69) after
`__post_init__`: the declared fields plus the state and the internal
counter. The packet constructor, a stateful nullary closure in the
source, is embedded as a pure function of the global invocation counter. -/
structure Schedule where
  start : Int
  duration : Int
  delay : Int
  num : Nat
  mode : RadioMode
  packet_constructor : Option (Nat → DataPacket)
  state : ScheduleState
  current : Nat

/-- `Schedule.next_time` (src/network/Schedule.py lines 71-82), as a state
transformer: the value is `start + current * delay` while `current < num`
and the RuntimeError branch is `none`; the schedule itself is returned
unchanged because the method assigns nothing. -/
def Schedule.next_time (s : Schedule) : Option Int × Schedule :=
  if s.current < s.num then (some (s.start + (s.current : Int) * s.delay), s)
  else (none, s)

/-- The value yielded by one advance of the `Schedule.event` generator
(src/network/Schedule.py lines 84-109): the freshly constructed
`DataPacket` in TX mode, the schedule itself in RX mode, the untouched
`None` initialiser in OFF mode, and an error marker for the TX branch
with a null constructor, where the source would raise. -/
inductive EventYield where
  | dataPacket (p : DataPacket)
  | scheduleSelf
  | noneVal
  | nullConstructorError

/-- One `next(schedule.event())` (src/network/Schedule.py lines 84-109):
if the counter is below `num` it is incremented, the mode picks the
yielded value, and the state flips to COMPLETE exactly when the counter
reaches `num`; otherwise the generator is exhausted (`none`, a Python
StopIteration) and nothing is touched. The `Nat` argument and result
thread the packet-constructor invocation counter. -/
def Schedule.eventStep (s : Schedule) (ncalls : Nat) :
    Option EventYield × Schedule × Nat :=
  if s.current < s.num then
    let current' := s.current + 1
    let yv : EventYield × Nat :=
      match s.mode with
      | RadioMode.TX =>
        match s.packet_constructor with
        | some f => (EventYield.dataPacket (f ncalls), ncalls + 1)
        | none => (EventYield.nullConstructorError, ncalls)
      | RadioMode.RX => (EventYield.scheduleSelf, ncalls)
      | RadioMode.OFF => (EventYield.noneVal, ncalls)
    let state' := if current' = s.num then ScheduleState.COMPLETE else s.state
    (some yv.1, { s with current := current', state := state' }, yv.2)
  else (none, s, ncalls)

/-- `k` successive `next(schedule.event())` calls, threading the schedule
and the constructor invocation counter. -/
def Schedule.iterateEvent : Nat → Schedule → Nat → Schedule × Nat
  | 0, s, n => (s, n)
  | k + 1, s, n =>
    let r := Schedule.eventStep s n
    Schedule.iterateEvent k r.2.1 r.2.2

/-- The two queryable operations of a `Schedule`. -/
inductive SchedOp where
  | eventNext
  | timeQuery
deriving DecidableEq

/-- Run one schedule operation on the pair of schedule and constructor
invocation counter. -/
def runOp (sn : Schedule × Nat) (op : SchedOp) : Schedule × Nat :=
  match op with
  | SchedOp.eventNext => (Schedule.eventStep sn.1 sn.2).2
  | SchedOp.timeQuery => ((Schedule.next_time sn.1).2, sn.2)

/-- Run a sequence of schedule operations. -/
def runOps (ops : List SchedOp) (sn : Schedule × Nat) : Schedule × Nat :=
  ops.foldl runOp sn

/-- The externally visible actions of one firing of the
`ScheduleManager.run` loop (src/network/ScheduleManager.py lines
149-158): spawning the transmit callback as an independent process,
awaiting the receive callback inline, and invoking the packet handler
callback with the value the receive callback returned. -/
inductive ManagerAction where
  | spawnTransmit (duration : Int) (y : EventYield)
  | awaitReceive (duration : Int)
  | handlePacket (p : Option DataPacket)

/-- The firing branch of `ScheduleManager.run` (src/network/
ScheduleManager.py lines 149-158), reached when `next_time` equals the
clock: in TX mode the transmit callback is spawned with the schedule
duration and the yield of one event step; in RX mode the receive
callback runs inline with the duration read off the yielded schedule and
its return value `rxResult` is then passed to the packet handler. The
action list keeps the order in which the callbacks are engaged. -/
def ScheduleManager.enactFiring (s : Schedule) (ncalls : Nat)
    (rxResult : Option DataPacket) : List ManagerAction × Schedule × Nat :=
  match s.mode with
  | RadioMode.TX =>
    let r := Schedule.eventStep s ncalls
    match r.1 with
    | some y => ([ManagerAction.spawnTransmit s.duration y], r.2.1, r.2.2)
    | none => ([], r.2.1, r.2.2)
  | RadioMode.RX =>
    let r := Schedule.eventStep s ncalls
    match r.1 with
    | some _ =>
      ([ManagerAction.awaitReceive r.2.1.duration,
        ManagerAction.handlePacket rxResult], r.2.1, r.2.2)
    | none => ([], r.2.1, r.2.2)
  | RadioMode.OFF => ([], s, ncalls)

/-- Evaluation of a field-producer mapping in insertion order, starting
from invocation counter `k`: the producer of the i-th field is invoked
with counter `k + i`. -/
def evalFields : List (String × (Nat → Value)) → Nat → List (String × Value)
  | [], _ => []
  | (nm, f) :: rest, k => (nm, f k) :: evalFields rest (k + 1)

/-- The loop body of the `fields` branch of `DataPacket.__init__`
(src/network/Packet.py lines 48-51): append the produced value for one
field and advance the invocation counter. -/
def fieldStep (acc : List (String × Value) × Nat)
    (nf : String × (Nat → Value)) : List (String × Value) × Nat :=
  (acc.1 ++ [(nf.1, nf.2 acc.2)], acc.2 + 1)

/-- `DataPacket.__init__` with a `fields` mapping (src/network/Packet.py
lines 18-53): iterate the mapping in insertion order, invoking each
producer once and freezing its value into the contents. `k` is the
global producer invocation counter before construction. -/
def DataPacket.fromFields (src dest : String)
    (fields : List (String × (Nat → Value))) (k : Nat) : DataPacket × Nat :=
  let r := fields.foldl fieldStep ([], k)
  (⟨src, dest, r.1⟩, r.2)

/-- Sample data packet from node B to node A, mirroring the test fixtures
in src/test/test_communications.py. -/
def dpBA : DataPacket := ⟨"B", "A", [("msg", Value.str "Hello from B!")]⟩

/-- Sample data packet from node C to node A. -/
def dpCA : DataPacket := ⟨"C", "A", [("msg", Value.str "Hello from C!")]⟩

/-- Sample on-air packet wrapping `dpBA`, duration 5, RSSI 1, as built by
`Radio.transmit`. -/
def pktBA : RadioPacket := ⟨dpBA, 5, 1⟩

/-- Sample on-air packet wrapping `dpCA`, duration 5, RSSI 1. -/
def pktCA : RadioPacket := ⟨dpCA, 5, 1⟩

/-- Appending below capacity never drops: plain list append. -/
lemma ringAppend_of_le {α : Type} (cap : Nat) (buf : List α) (x : α)
    (h : buf.length + 1 ≤ cap) : ringAppend cap buf x = buf ++ [x] := by
  simp [ringAppend, h]

/-- C4: the spec says two CollisionEvents are equal exactly when their
times agree and their packet pairs agree up to order; the source
`__eq__`, read with Python operator precedence, compares the packets
alone in the swapped-order disjunct, so two events with swapped distinct
packets and different times are reported equal. The concrete input below
violates the claim. -/
theorem C4_collision_eq_ignores_time_when_swapped :
    pktBA ≠ pktCA ∧ (0 : Rat) ≠ 1 ∧
    CollisionEvent.beq ⟨CollisionStatus.COLLISION, 0, pktBA, pktCA⟩
      ⟨CollisionStatus.COLLISION, 1, pktCA, pktBA⟩ = true := by
  decide

/-- C5: `notify_intent_to_deliver` returns false exactly when the mode is
not RX or the RSSI is below threshold; the mode gate runs first and
appends one DROPPED_MODE event regardless of the RSSI; the RSSI gate
appends one DROPPED_RSSI event; on success nothing changes. -/
theorem C5_notify_intent_gate (r : Radio) (now : Rat) (p : RadioPacket) :
    ((r.notify_intent_to_deliver now p).1 = false ↔
      (r.mode ≠ RadioMode.RX ∨ p.rssi < r.threshold_rssi)) ∧
    (r.mode ≠ RadioMode.RX →
      ((r.notify_intent_to_deliver now p).2.rx_packet_history =
        ringAppend 100 r.rx_packet_history
          ⟨PacketEventStatus.DROPPED_MODE, now, p⟩ ∧
       (r.notify_intent_to_deliver now p).2.tx_packet_history =
         r.tx_packet_history ∧
       (r.notify_intent_to_deliver now p).2.mode = r.mode ∧
       (r.notify_intent_to_deliver now p).2.threshold_rssi =
         r.threshold_rssi)) ∧
    (r.mode = RadioMode.RX → p.rssi < r.threshold_rssi →
      ((r.notify_intent_to_deliver now p).2.rx_packet_history =
        ringAppend 100 r.rx_packet_history
          ⟨PacketEventStatus.DROPPED_RSSI, now, p⟩ ∧
       (r.notify_intent_to_deliver now p).2.tx_packet_history =
         r.tx_packet_history ∧
       (r.notify_intent_to_deliver now p).2.mode = r.mode ∧
       (r.notify_intent_to_deliver now p).2.threshold_rssi =
         r.threshold_rssi)) ∧
    ((r.notify_intent_to_deliver now p).1 = true →
      (r.notify_intent_to_deliver now p).2 = r) := by
  by_cases h1 : r.mode = RadioMode.RX
  · by_cases h2 : p.rssi < r.threshold_rssi
    · simp [Radio.notify_intent_to_deliver, h1, h2]
    · simp [Radio.notify_intent_to_deliver, h1, h2]
  · simp [Radio.notify_intent_to_deliver, h1]

/-- C5 witness: a radio fresh out of construction is OFF, so an arriving
packet is dropped on the mode gate and logged once. -/
theorem C5_witness :
    (Radio.make.notify_intent_to_deliver 0 pktBA).1 = false ∧
    (Radio.make.notify_intent_to_deliver 0 pktBA).2.rx_packet_history =
      ringAppend 100 Radio.make.rx_packet_history
        ⟨PacketEventStatus.DROPPED_MODE, 0, pktBA⟩ :=
  ⟨((C5_notify_intent_gate Radio.make 0 pktBA).1).mpr (Or.inl (by decide)),
   (((C5_notify_intent_gate Radio.make 0 pktBA).2.1) (by decide)).1⟩

/-- C2: the claim (and the test oracle in
src/test/test_communications.py, test_listening) requires that a window
timeout with no live pending-delivery task appends exactly one
NOTHING_RX event with a null packet; the source `Radio.receive` only
writes a debug log line on that path and its Status enumeration has no
NOTHING_RX member, so a receiver that listens over an empty medium ends
with an empty RX history. -/
theorem C2_receive_timeout_appends_no_event :
    ((Radio.make.receive 0 5 [] false).1).rx_packet_history = [] ∧
    (Radio.make.receive 0 5 [] false).2.1 = none ∧
    (Radio.make.receive 0 5 [] false).2.2 = false := by
  have h : receiveLoop (5:Rat) false [] 0 Radio.make.rx_packet_history none =
      ([], none, false) := by
    rw [receiveLoop]
    split <;> rfl
  refine ⟨?_, ?_, ?_⟩ <;> simp [Radio.receive, h]

/-- Closed form of the tracker loop on a chronological, in-window list of
interrupts: the loop consumes every interrupt, the clock ends at
`end_time`, the collision flag ends true exactly when it started true or
at least one interrupt arrived, and the world history grows by one
collision event per RadioPacket cause, in arrival order. -/
lemma pending_transmit_loop_spec (end_time : Rat) (packet : RadioPacket) :
    ∀ (ints : List TrackerInterrupt) (now : Rat) (collision : Bool)
      (hist : List CollisionEvent),
      now < end_time →
      (∀ i ∈ ints, now ≤ i.time ∧ i.time < end_time) →
      List.Pairwise (fun a b => a.time ≤ b.time) ints →
      hist.length + (collisionsOf packet ints).length ≤ 100 →
      pending_transmit_loop end_time packet ints now collision hist =
        (end_time, collision || !ints.isEmpty, hist ++ collisionsOf packet ints) := by
  intro ints
  induction ints with
  | nil =>
    intro now c hist hnow _ _ _
    simp [pending_transmit_loop, hnow, collisionsOf]
  | cons i rest ih =>
    intro now c hist hnow hmem hpw hcap
    obtain ⟨t, cause⟩ := i
    have hit : t < end_time := (hmem ⟨t, cause⟩ (List.mem_cons_self _ _)).2
    have hrest : ∀ j ∈ rest, t ≤ j.time ∧ j.time < end_time := by
      intro j hj
      exact ⟨(List.pairwise_cons.mp hpw).1 j hj,
        (hmem j (List.mem_cons.mpr (Or.inr hj))).2⟩
    have hpwrest : List.Pairwise (fun a b => a.time ≤ b.time) rest :=
      (List.pairwise_cons.mp hpw).2
    rw [pending_transmit_loop, if_pos hnow]
    cases cause with
    | radioPacket q =>
      have hcons : collisionsOf packet (⟨t, InterruptCause.radioPacket q⟩ :: rest) =
          ⟨CollisionStatus.COLLISION, t, q, packet⟩ :: collisionsOf packet rest := by
        simp [collisionsOf]
      have hlen : hist.length + 1 ≤ 100 := by
        rw [hcons] at hcap
        simp at hcap
        omega
      have hring : ringAppend 100 hist
          ⟨CollisionStatus.COLLISION, t, q, packet⟩ =
          hist ++ [⟨CollisionStatus.COLLISION, t, q, packet⟩] :=
        ringAppend_of_le 100 hist _ hlen
      have hcap2 : (hist ++ [(⟨CollisionStatus.COLLISION, t, q, packet⟩ : CollisionEvent)]).length +
          (collisionsOf packet rest).length ≤ 100 := by
        rw [hcons] at hcap
        simp at hcap ⊢
        omega
      simp only [hring]
      rw [ih t true _ hit hrest hpwrest hcap2]
      rw [hcons]
      cases c <;> simp [List.append_assoc]
    | str s =>
      have hcons : collisionsOf packet (⟨t, InterruptCause.str s⟩ :: rest) =
          collisionsOf packet rest := by
        simp [collisionsOf]
      have hcap2 : hist.length + (collisionsOf packet rest).length ≤ 100 := by
        rw [hcons] at hcap
        exact hcap
      simp only []
      rw [ih t true hist hit hrest hpwrest hcap2]
      rw [hcons]
      cases c <;> simp

/-- C1: once any RadioPacket interrupt arrives inside the window, the
tracker never hands the packet over; every RadioPacket interrupt appends
exactly one collision event stamped with its arrival time; and the
tracker still runs to the end of the window, logging the later
collisions as well. -/
theorem C1_tracker_collision (start : Rat) (packet : RadioPacket)
    (ints : List TrackerInterrupt) (hist : List CollisionEvent)
    (hdur : 0 < packet.duration)
    (hmem : ∀ i ∈ ints, start ≤ i.time ∧ i.time < start + (packet.duration : Rat))
    (hpw : List.Pairwise (fun a b => a.time ≤ b.time) ints)
    (hcap : hist.length + (collisionsOf packet ints).length ≤ 100)
    (hpk : ∃ i ∈ ints, ∃ q, i.cause = InterruptCause.radioPacket q) :
    (World.pending_transmit start packet ints hist).delivered = false ∧
    (World.pending_transmit start packet ints hist).history =
      hist ++ collisionsOf packet ints ∧
    (∀ i ∈ ints, ∀ q, i.cause = InterruptCause.radioPacket q →
      (⟨CollisionStatus.COLLISION, i.time, q, packet⟩ : CollisionEvent) ∈
        (World.pending_transmit start packet ints hist).history) ∧
    (World.pending_transmit start packet ints hist).finalTime =
      start + (packet.duration : Rat) := by
  have hcast : (0:Rat) < (packet.duration : Rat) := by exact_mod_cast hdur
  have hlt : start < start + (packet.duration : Rat) := by linarith
  have hemp : ints.isEmpty = false := by
    obtain ⟨i, hi, _⟩ := hpk
    cases ints with
    | nil => simp at hi
    | cons a l => rfl
  have hspec := pending_transmit_loop_spec (start + (packet.duration : Rat))
    packet ints start false hist hlt hmem hpw hcap
  have hh : (World.pending_transmit start packet ints hist).history =
      hist ++ collisionsOf packet ints := by
    simp [World.pending_transmit, hspec]
  refine ⟨?_, hh, ?_, ?_⟩
  · simp [World.pending_transmit, hspec, hemp]
  · intro i hi q hq
    have hmem2 : (⟨CollisionStatus.COLLISION, i.time, q, packet⟩ : CollisionEvent) ∈
        collisionsOf packet ints := by
      unfold collisionsOf
      exact List.mem_filterMap.mpr ⟨i, hi, by simp [hq]⟩
    rw [hh]
    exact List.mem_append.mpr (Or.inr hmem2)
  · simp [World.pending_transmit, hspec]

/-- C1 witness: a tracker for `pktBA` on a window starting at 0 that is
interrupted by `pktCA` at tick 1 and by the receiver leaving RX at tick
2 logs exactly the one collision and never delivers. -/
theorem C1_witness :
    (World.pending_transmit 0 pktBA
      [⟨1, InterruptCause.radioPacket pktCA⟩,
       ⟨2, InterruptCause.str "Radio stopped being in receive mode!"⟩]
      []).delivered = false ∧
    (World.pending_transmit 0 pktBA
      [⟨1, InterruptCause.radioPacket pktCA⟩,
       ⟨2, InterruptCause.str "Radio stopped being in receive mode!"⟩]
      []).history = [⟨CollisionStatus.COLLISION, 1, pktCA, pktBA⟩] := by
  have h := C1_tracker_collision 0 pktBA
    [⟨1, InterruptCause.radioPacket pktCA⟩,
     ⟨2, InterruptCause.str "Radio stopped being in receive mode!"⟩] []
    (by decide)
    (by
      intro i hi
      simp at hi
      rcases hi with h | h <;> subst h <;> constructor <;> norm_num [pktBA])
    (by simp [List.pairwise_cons])
    (by decide)
    ⟨⟨1, InterruptCause.radioPacket pktCA⟩, List.mem_cons_self _ _, pktCA, rfl⟩
  exact ⟨h.1, by rw [h.2.1]; rfl⟩

/-- Every interrupt carrying a string cause produces no collision event. -/
lemma collisionsOf_eq_nil_of_str (packet : RadioPacket)
    (ints : List TrackerInterrupt)
    (h : ∀ i ∈ ints, ∃ s, i.cause = InterruptCause.str s) :
    collisionsOf packet ints = [] := by
  unfold collisionsOf
  rw [List.filterMap_eq_nil_iff]
  intro i hi
  obtain ⟨s, hs⟩ := h i hi
  simp [hs]

/-- C3 counterexample: the claim predicts that a tracker whose only
interrupt carries a string cause keeps the collision flag false and
hands the packet over at the end of the window. In the source the
assignment `collision = True` sits after the if/elif and runs for every
interrupt cause, so one string interrupt at tick 2 sets the flag and the
packet is never delivered. -/
theorem C3_counterexample :
    (World.pending_transmit 0 pktBA
      [⟨2, InterruptCause.str "Radio stopped being in receive mode!"⟩]
      []).collision = true ∧
    (World.pending_transmit 0 pktBA
      [⟨2, InterruptCause.str "Radio stopped being in receive mode!"⟩]
      []).delivered = false := by
  have hspec := pending_transmit_loop_spec ((0:Rat) + (pktBA.duration : Rat)) pktBA
    [⟨2, InterruptCause.str "Radio stopped being in receive mode!"⟩] 0 false []
    (by norm_num [pktBA])
    (by intro i hi; simp at hi; subst hi; constructor <;> norm_num [pktBA])
    (by simp)
    (by decide)
  simp only [zero_add] at hspec
  constructor <;> simp [World.pending_transmit, hspec, collisionsOf]

/-- C3 amended: if every interrupt before the end of the window carries a
string cause and no RadioPacket interrupt arrives, no collision event is
appended, but any interrupt at all still sets the collision flag, so the
tracker reactivates the receive event with the packet exactly when no
interrupt arrived during the window. -/
theorem C3_string_cause_still_blocks_delivery (start : Rat)
    (packet : RadioPacket) (ints : List TrackerInterrupt)
    (hist : List CollisionEvent)
    (hdur : 0 < packet.duration)
    (hmem : ∀ i ∈ ints, start ≤ i.time ∧ i.time < start + (packet.duration : Rat))
    (hpw : List.Pairwise (fun a b => a.time ≤ b.time) ints)
    (hlen : hist.length ≤ 100)
    (hstr : ∀ i ∈ ints, ∃ s, i.cause = InterruptCause.str s) :
    (World.pending_transmit start packet ints hist).history = hist ∧
    (World.pending_transmit start packet ints hist).collision = !ints.isEmpty ∧
    (World.pending_transmit start packet ints hist).delivered = ints.isEmpty := by
  have hnil := collisionsOf_eq_nil_of_str packet ints hstr
  have hcast : (0:Rat) < (packet.duration : Rat) := by exact_mod_cast hdur
  have hlt : start < start + (packet.duration : Rat) := by linarith
  have hcap : hist.length + (collisionsOf packet ints).length ≤ 100 := by
    rw [hnil]
    simpa using hlen
  have hspec := pending_transmit_loop_spec (start + (packet.duration : Rat))
    packet ints start false hist hlt hmem hpw hcap
  refine ⟨?_, ?_, ?_⟩
  · simp [World.pending_transmit, hspec, hnil]
  · simp [World.pending_transmit, hspec]
  · simp [World.pending_transmit, hspec]

/-- C3 witness for the amended statement: one string interrupt at tick 3
inside the window of `pktCA` leaves the world history untouched, sets
the collision flag and blocks the hand-off. -/
theorem C3_witness :
    (World.pending_transmit 0 pktCA
      [⟨3, InterruptCause.str "Radio stopped being in receive mode!"⟩]
      []).history = [] ∧
    (World.pending_transmit 0 pktCA
      [⟨3, InterruptCause.str "Radio stopped being in receive mode!"⟩]
      []).collision = true ∧
    (World.pending_transmit 0 pktCA
      [⟨3, InterruptCause.str "Radio stopped being in receive mode!"⟩]
      []).delivered = false := by
  have h := C3_string_cause_still_blocks_delivery 0 pktCA
    [⟨3, InterruptCause.str "Radio stopped being in receive mode!"⟩] []
    (by decide)
    (by intro i hi; simp at hi; subst hi; constructor <;> norm_num [pktCA])
    (by simp)
    (by decide)
    (by intro i hi; simp at hi; subst hi; exact ⟨_, rfl⟩)
  exact ⟨h.1, by rw [h.2.1]; rfl, by rw [h.2.2]; rfl⟩

/-- Sample broadcast data packet from node C, destination "All". -/
def dpCX : DataPacket := ⟨"C", "All", [("msg", Value.str "Hello from C!")]⟩

/-- Sample on-air broadcast packet wrapping `dpCX`. -/
def pktCX : RadioPacket := ⟨dpCX, 5, 1⟩

/-- C6: when the destination is the broadcast sentinel "All" the set of
radios receiving a delivery attempt is exactly the node set minus the
source; otherwise it is the single named destination, even when that
destination equals the source. -/
theorem C6_routing_recipients (nodeNames : List String) (p : RadioPacket)
    (hnd : nodeNames.Nodup) :
    (p.dest = "All" → p.src ∈ nodeNames →
      World.deliveryAttempts nodeNames p = some (nodeNames.erase p.src) ∧
      ∀ x, x ∈ nodeNames.erase p.src ↔ (x ∈ nodeNames ∧ x ≠ p.src)) ∧
    (p.dest ≠ "All" → p.dest ∈ nodeNames →
      World.deliveryAttempts nodeNames p = some [p.dest]) := by
  constructor
  · intro hall hsrc
    refine ⟨by simp [World.deliveryAttempts, hall, hsrc], ?_⟩
    intro x
    rw [List.Nodup.mem_erase_iff hnd]
    tauto
  · intro hne hdest
    simp [World.deliveryAttempts, hne, hdest]

/-- C6 witness: in the three-node world, a broadcast from C is attempted
on exactly A and B, and a unicast from B to A on exactly A. -/
theorem C6_witness :
    World.deliveryAttempts ["A", "B", "C"] pktCX = some ["A", "B"] ∧
    World.deliveryAttempts ["A", "B", "C"] pktBA = some ["A"] := by
  have h := C6_routing_recipients ["A", "B", "C"] pktCX (by decide)
  have h2 := C6_routing_recipients ["A", "B", "C"] pktBA (by decide)
  refine ⟨?_, h2.2 (by decide) (by decide)⟩
  have hb := (h.1 rfl (by decide)).1
  rw [hb]
  rfl

/-- `next_time` assigns nothing: the schedule comes back unchanged. -/
lemma next_time_snd (s : Schedule) : (Schedule.next_time s).2 = s := by
  unfold Schedule.next_time
  split <;> rfl

/-- One event step never touches the schedule parameters; the counter
moves up by one exactly while it is below `num`. -/
lemma eventStep_fields (s : Schedule) (n : Nat) :
    (Schedule.eventStep s n).2.1.start = s.start ∧
    (Schedule.eventStep s n).2.1.delay = s.delay ∧
    (Schedule.eventStep s n).2.1.duration = s.duration ∧
    (Schedule.eventStep s n).2.1.num = s.num ∧
    (Schedule.eventStep s n).2.1.mode = s.mode ∧
    (Schedule.eventStep s n).2.1.current =
      (if s.current < s.num then s.current + 1 else s.current) := by
  unfold Schedule.eventStep
  split <;> simp

/-- Iterating the event generator from a counter position that fits in
the remaining budget advances the counter by the number of steps and
keeps the schedule parameters. -/
lemma iterateEvent_spec (k : Nat) : ∀ (s : Schedule) (n : Nat),
    s.current + k ≤ s.num →
    (Schedule.iterateEvent k s n).1.current = s.current + k ∧
    (Schedule.iterateEvent k s n).1.start = s.start ∧
    (Schedule.iterateEvent k s n).1.delay = s.delay ∧
    (Schedule.iterateEvent k s n).1.num = s.num := by
  induction k with
  | zero =>
    intro s n _
    simp [Schedule.iterateEvent]
  | succ k ih =>
    intro s n h
    have hlt : s.current < s.num := by omega
    have hf := eventStep_fields s n
    have hcur : (Schedule.eventStep s n).2.1.current = s.current + 1 := by
      rw [hf.2.2.2.2.2, if_pos hlt]
    have hih := ih (Schedule.eventStep s n).2.1 (Schedule.eventStep s n).2.2
      (by rw [hcur, hf.2.2.2.1]; omega)
    rw [Schedule.iterateEvent]
    refine ⟨?_, ?_, ?_, ?_⟩
    · rw [hih.1, hcur]
      omega
    · rw [hih.2.1, hf.1]
    · rw [hih.2.2.1, hf.2.1]
    · rw [hih.2.2.2, hf.2.2.2.1]

/-- C7: `next_time` yields `start + current * delay` while the counter is
below `num` and fails once it reaches `num`; it is idempotent and
mutates nothing; each event step advances the counter by exactly one and
flips the state to COMPLETE exactly when the counter reaches `num`;
hence after k steps from a fresh schedule the next firing is computed
for `start + k * delay`. -/
theorem C7_schedule_next_time_and_event :
    (∀ s : Schedule, s.current < s.num →
      (Schedule.next_time s).1 = some (s.start + (s.current : Int) * s.delay)) ∧
    (∀ s : Schedule, s.current = s.num → (Schedule.next_time s).1 = none) ∧
    (∀ s : Schedule, (Schedule.next_time s).2 = s) ∧
    (∀ s : Schedule,
      Schedule.next_time ((Schedule.next_time s).2) = Schedule.next_time s) ∧
    (∀ (s : Schedule) (n : Nat), s.current < s.num →
      s.state = ScheduleState.ACTIVE →
      ((Schedule.eventStep s n).2.1.current = s.current + 1 ∧
       ((Schedule.eventStep s n).2.1.state = ScheduleState.COMPLETE ↔
        (Schedule.eventStep s n).2.1.current = s.num))) ∧
    (∀ (s : Schedule) (n k : Nat), s.current = 0 → k < s.num →
      (Schedule.next_time (Schedule.iterateEvent k s n).1).1 =
        some (s.start + (k : Int) * s.delay)) := by
  refine ⟨?_, ?_, next_time_snd, ?_, ?_, ?_⟩
  · intro s h
    simp [Schedule.next_time, h]
  · intro s h
    simp [Schedule.next_time, h]
  · intro s
    rw [next_time_snd]
  · intro s n hlt hact
    have hf := eventStep_fields s n
    have hcur : (Schedule.eventStep s n).2.1.current = s.current + 1 := by
      rw [hf.2.2.2.2.2, if_pos hlt]
    refine ⟨hcur, ?_⟩
    rw [hcur]
    unfold Schedule.eventStep
    rw [if_pos hlt]
    by_cases hc : s.current + 1 = s.num
    · simp [hc]
    · simp [hc, hact]
  · intro s n k h0 hk
    have hs := iterateEvent_spec k s n (by omega)
    have hcur : (Schedule.iterateEvent k s n).1.current = k := by
      rw [hs.1, h0]
      omega
    have hlt : (Schedule.iterateEvent k s n).1.current <
        (Schedule.iterateEvent k s n).1.num := by
      rw [hcur, hs.2.2.2]
      exact hk
    simp [Schedule.next_time, hcur, hs.2.1, hs.2.2.1, hs.2.2.2, hk]

/-- A TX schedule mirroring the fixture of
src/test/test_scheduling.py test_manager: start 10, duration 5, delay
20, five firings, counting packet constructor. -/
def schedTX : Schedule :=
  { start := 10, duration := 5, delay := 20, num := 5, mode := RadioMode.TX,
    packet_constructor := some (fun n => ⟨"A", "B", [("Var", Value.int ((n : Int) + 1))]⟩),
    state := ScheduleState.ACTIVE, current := 0 }

/-- C7 witness: on the concrete TX schedule the first firing is at 10,
`next_time` is stable under repetition, one event step moves the counter
to 1, and after three steps the next firing is at 70. -/
theorem C7_witness :
    (Schedule.next_time schedTX).1 = some 10 ∧
    Schedule.next_time ((Schedule.next_time schedTX).2) =
      Schedule.next_time schedTX ∧
    (Schedule.eventStep schedTX 0).2.1.current = 1 ∧
    (Schedule.next_time (Schedule.iterateEvent 3 schedTX 0).1).1 = some 70 := by
  refine ⟨?_, ?_, ?_, ?_⟩
  · rw [C7_schedule_next_time_and_event.1 schedTX (by decide)]
    decide
  · exact C7_schedule_next_time_and_event.2.2.2.1 schedTX
  · rw [(C7_schedule_next_time_and_event.2.2.2.2.1 schedTX 0 (by decide) rfl).1]
    decide
  · rw [C7_schedule_next_time_and_event.2.2.2.2.2 schedTX 0 3 rfl (by decide)]
    decide

/-- A run of one schedule operation keeps the counter within bounds and
never changes `num`. -/
lemma runOp_invariant (sn : Schedule × Nat) (op : SchedOp)
    (h : sn.1.current ≤ sn.1.num) :
    (runOp sn op).1.current ≤ (runOp sn op).1.num ∧
    (runOp sn op).1.num = sn.1.num := by
  cases op with
  | eventNext =>
    have hf := eventStep_fields sn.1 sn.2
    unfold runOp
    refine ⟨?_, hf.2.2.2.1⟩
    rw [hf.2.2.2.2.2, hf.2.2.2.1]
    split <;> omega
  | timeQuery =>
    unfold runOp
    rw [next_time_snd]
    exact ⟨h, rfl⟩

/-- Running a list of operations is one operation then the rest. -/
lemma runOps_cons (op : SchedOp) (rest : List SchedOp) (sn : Schedule × Nat) :
    runOps (op :: rest) sn = runOps rest (runOp sn op) := rfl

/-- C10: on an exhausted schedule (counter at `num`) one more
`next(schedule.event())` raises StopIteration, invokes no packet
constructor (the invocation counter is unchanged) and mutates nothing;
consequently the counter never exceeds `num` under any sequence of
`event` and `next_time` calls. -/
theorem C10_event_generator_after_complete :
    (∀ (s : Schedule) (n : Nat), s.current = s.num →
      Schedule.eventStep s n = (none, s, n)) ∧
    (∀ (ops : List SchedOp) (s : Schedule) (n : Nat), s.current ≤ s.num →
      (runOps ops (s, n)).1.current ≤ s.num) := by
  constructor
  · intro s n h
    unfold Schedule.eventStep
    rw [if_neg (by omega)]
  · intro ops
    induction ops with
    | nil =>
      intro s n h
      simpa [runOps] using h
    | cons op rest ih =>
      intro s n h
      rw [runOps_cons]
      have hi := runOp_invariant (s, n) op h
      have h2 := ih (runOp (s, n) op).1 (runOp (s, n) op).2 hi.1
      rw [Prod.mk.eta] at h2
      rw [hi.2] at h2
      exact h2

/-- The TX fixture after all five firings: counter at `num`, COMPLETE. -/
def schedDone : Schedule :=
  { schedTX with current := 5, state := ScheduleState.COMPLETE }

/-- C10 witness: the exhausted fixture yields StopIteration untouched,
and a mixed operation sequence keeps the counter at or below `num`. -/
theorem C10_witness :
    Schedule.eventStep schedDone 7 = (none, schedDone, 7) ∧
    (runOps [SchedOp.eventNext, SchedOp.timeQuery, SchedOp.eventNext]
      (schedDone, 7)).1.current ≤ schedDone.num :=
  ⟨C10_event_generator_after_complete.1 schedDone 7 rfl,
   C10_event_generator_after_complete.2
     [SchedOp.eventNext, SchedOp.timeQuery, SchedOp.eventNext] schedDone 7
     (by decide)⟩

/-- C8: an RX firing runs the receive callback inline and then invokes
the packet handler exactly once with the value the receive callback
returned, in that order; a TX firing never invokes the packet handler. -/
theorem C8_manager_rx_firing :
    (∀ (s : Schedule) (n : Nat) (rx : Option DataPacket),
      s.mode = RadioMode.RX → s.current < s.num →
      (ScheduleManager.enactFiring s n rx).1 =
        [ManagerAction.awaitReceive s.duration,
         ManagerAction.handlePacket rx]) ∧
    (∀ (s : Schedule) (n : Nat) (rx p : Option DataPacket),
      s.mode = RadioMode.TX →
      ManagerAction.handlePacket p ∉ (ScheduleManager.enactFiring s n rx).1) := by
  constructor
  · intro s n rx hmode hlt
    simp [ScheduleManager.enactFiring, hmode, Schedule.eventStep, hlt]
  · intro s n rx p hmode
    simp only [ScheduleManager.enactFiring, hmode]
    cases h : (Schedule.eventStep s n).1 <;> simp [h]

/-- An RX schedule mirroring the fixture of
src/test/test_scheduling.py test_manager: start 5, duration 15, delay
20, five firings, no packet constructor. -/
def schedRX : Schedule :=
  { start := 5, duration := 15, delay := 20, num := 5, mode := RadioMode.RX,
    packet_constructor := none,
    state := ScheduleState.ACTIVE, current := 0 }

/-- C8 witness: a firing of the RX fixture awaits the receive callback
for 15 ticks and hands its result to the packet handler once; a firing
of the TX fixture never reaches the packet handler. -/
theorem C8_witness :
    (ScheduleManager.enactFiring schedRX 0 (some dpBA)).1 =
      [ManagerAction.awaitReceive 15,
       ManagerAction.handlePacket (some dpBA)] ∧
    ManagerAction.handlePacket (some dpBA) ∉
      (ScheduleManager.enactFiring schedTX 0 (some dpBA)).1 := by
  constructor
  · rw [C8_manager_rx_firing.1 schedRX 0 (some dpBA) rfl (by decide)]
    rfl
  · exact C8_manager_rx_firing.2 schedTX 0 (some dpBA) (some dpBA) rfl

/-- The field loop of `DataPacket.__init__` in closed form: it appends
the values produced in insertion order and advances the invocation
counter once per field. -/
lemma fromFields_foldl (fields : List (String × (Nat → Value))) :
    ∀ (acc : List (String × Value)) (k : Nat),
    fields.foldl fieldStep (acc, k) =
      (acc ++ evalFields fields k, k + fields.length) := by
  induction fields with
  | nil =>
    intro acc k
    simp [evalFields]
  | cons nf rest ih =>
    intro acc k
    obtain ⟨nm, f⟩ := nf
    rw [List.foldl_cons]
    rw [show fieldStep (acc, k) (nm, f) = (acc ++ [(nm, f k)], k + 1) from rfl]
    rw [ih]
    simp [evalFields]
    omega

/-- Looking a key up in an association list with distinct keys finds the
value stored with it. -/
lemma lookup_of_nodup : ∀ (l : List (String × Value)),
    (l.map Prod.fst).Nodup → ∀ kv ∈ l, l.lookup kv.1 = some kv.2 := by
  intro l
  induction l with
  | nil =>
    intro _ kv hkv
    simp at hkv
  | cons hd tl ih =>
    intro hnd kv hkv
    obtain ⟨a, b⟩ := hd
    have hnd2 := List.pairwise_cons.mp hnd
    rcases List.mem_cons.mp hkv with h | h
    · subst h
      simp [List.lookup]
    · have hne : kv.1 ≠ a := by
        intro he
        exact hnd2.1 kv.1 (List.mem_map.mpr ⟨kv, h, rfl⟩) he.symm
    
      have : (kv.1 == a) = false := by
        simp [hne]
      simp [List.lookup, this]
      exact ih hnd2.2 kv h

/-- Python dict equality is reflexive on a dict, whose keys are unique. -/
lemma dictBeq_refl (l : List (String × Value))
    (h : (l.map Prod.fst).Nodup) : dictBeq l l = true := by
  unfold dictBeq
  rw [Bool.and_eq_true]
  constructor <;>
  · rw [List.all_eq_true]
    intro kv hkv
    simp [lookup_of_nodup l h kv hkv]

/-- Evaluating the producers keeps the field names. -/
lemma evalFields_keys (fields : List (String × (Nat → Value))) : ∀ k,
    (evalFields fields k).map Prod.fst = fields.map Prod.fst := by
  induction fields with
  | nil =>
    intro k
    rfl
  | cons nf rest ih =>
    intro k
    obtain ⟨nm, f⟩ := nf
    simp [evalFields, ih]

/-- C9: constructing a DataPacket from a field-producer mapping invokes
each producer exactly once, in insertion order (the i-th producer sees
the invocation counter advanced i times), freezes the produced values
into the contents, and the result equals, under the source equality, a
DataPacket constructed directly from those values. -/
theorem C9_fromFields_roundtrip (src dest : String)
    (fields : List (String × (Nat → Value))) (k : Nat)
    (hkeys : (fields.map Prod.fst).Nodup) :
    (DataPacket.fromFields src dest fields k).2 = k + fields.length ∧
    (DataPacket.fromFields src dest fields k).1.contents =
      evalFields fields k ∧
    DataPacket.beq (DataPacket.fromFields src dest fields k).1
      ⟨src, dest, evalFields fields k⟩ = true := by
  have hf := fromFields_foldl fields [] k
  have hk : ((evalFields fields k).map Prod.fst).Nodup := by
    rw [evalFields_keys]
    exact hkeys
  refine ⟨?_, ?_, ?_⟩
  · simp [DataPacket.fromFields, hf]
  · simp [DataPacket.fromFields, hf]
  · simp [DataPacket.fromFields, DataPacket.beq, hf, dictBeq_refl _ hk]

/-- C9 witness: two counting producers are each called once, in order
(the first sees counter 0, the second counter 1), and the packet equals
one built from the frozen contents. -/
theorem C9_witness :
    (DataPacket.fromFields "A" "B"
      [("Var", fun n => Value.int (n : Int)),
       ("Tick", fun n => Value.int (n : Int))] 0).2 = 2 ∧
    (DataPacket.fromFields "A" "B"
      [("Var", fun n => Value.int (n : Int)),
       ("Tick", fun n => Value.int (n : Int))] 0).1.contents =
      [("Var", Value.int 0), ("Tick", Value.int 1)] ∧
    DataPacket.beq
      (DataPacket.fromFields "A" "B"
        [("Var", fun n => Value.int (n : Int)),
         ("Tick", fun n => Value.int (n : Int))] 0).1
      ⟨"A", "B", [("Var", Value.int 0), ("Tick", Value.int 1)]⟩ = true := by
  have h := C9_fromFields_roundtrip "A" "B"
    [("Var", fun n => Value.int (n : Int)),
     ("Tick", fun n => Value.int (n : Int))] 0 (by decide)
  refine ⟨by simpa using h.1, by rw [h.2.1]; rfl, ?_⟩
  have h3 := h.2.2
  rw [show evalFields
      [("Var", fun n => Value.int (n : Int)),
       ("Tick", fun n => Value.int (n : Int))] 0 =
      [("Var", Value.int 0), ("Tick", Value.int 1)] from rfl] at h3
  exact h3
